import Mathlib

/-!
# Verification of the fyne `List` widget virtualization core (`widget/list.go`)

This file is a shallow embedding of the virtualization core of the `List`
widget: the visible-window calculator (`calculateVisibleItemMeasures`), the
window recompute pass (`updateList`), the separator manager
(`updateSeparators`), the binary-search lookup over the visible set
(`searchVisible`), content measurement (`contentMinSize`), and the public
state operations (`Select`, `ScrollTo`, `SetItemMeasure`).

Modelling conventions:

* Go `float32` values (sizes, offsets, paddings) are modelled as exact
  rationals `ℚ`.  All concrete scenarios in the claims use small values on
  which `float32` arithmetic is exact, so the rational model is faithful
  there; the structural properties proved below do not depend on rounding.
* Go `int` is modelled as `ℤ` (no claim involves 64-bit overflow).
* A nil-able Go function field is modelled as a `Bool` flag (present / nil)
  or an `Option` of its result; a nil-able Go map as `Option` of an
  association list with the Go zero-value-on-missing-key semantics.
* Only the vertical orientation is modelled; the horizontal branch of every
  function is the exact mirror image (swap X/Y, width/height) and no claim
  distinguishes orientations.
* Renderable item instances are opaque mutable objects; we model each by an
  identity tag (`Nat`) plus the position/size the pass assigns to it.
-/

namespace FyneList

/-- Floor of a rational; Go `math.Floor` applied to an exactly represented
value. -/
def qfloor (q : ℚ) : Int := ⌊q⌋

/-- Ceiling of a rational; Go `math.Ceil` on an exactly represented value. -/
def qceil (q : ℚ) : Int := ⌈q⌉

/-- Go map read with ok-flag: `m, ok := itemMeasures[k]` on the association
list modelling the map. -/
def lookup (m : List (Int × ℚ)) (k : Int) : Option ℚ :=
  match m with
  | [] => none
  | (k', v) :: rest => if k' = k then some v else lookup rest k

/-- Go map read without ok-flag: zero value (here the supplied default) when
the key is absent. -/
def lookupD (m : List (Int × ℚ)) (k : Int) (dflt : ℚ) : ℚ :=
  (lookup m k).getD dflt

/-- Go map assignment `m[k] = v` on the association-list model. -/
def insertMeasure (m : List (Int × ℚ)) (k : Int) (v : ℚ) : List (Int × ℚ) :=
  match m with
  | [] => [(k, v)]
  | (k', v') :: rest =>
    if k' = k then (k, v) :: rest else (k', v') :: insertMeasure rest k v

/-! ## Visible Window Calculator (`listLayout.calculateVisibleItemMeasures`) -/

/-- Result of one run of the calculator: the snapped start offset `off`, the
first visible index `minItem`, and the contents of the
`l.visibleItemMeasures` slice after the call. -/
structure CalcResult where
  off : ℚ
  minItem : Int
  visibleItemMeasures : List ℚ
deriving Repr, DecidableEq, Inhabited

/-- State threaded through the override-aware scan of
`calculateVisibleItemMeasures` (list.go lines 504-527): the running
accumulated `offset`, the `isVisible` flag, the named results `minItem` and
`off`, and the measures appended to `l.visibleItemMeasures` so far. -/
structure OvAcc where
  offset : ℚ
  isVisible : Bool
  minItem : Int
  off : ℚ
  out : List ℚ
deriving Repr, DecidableEq

/-- The `for i := 0; i < length; i++` scan of the override-aware path of
`calculateVisibleItemMeasures`.  Each iteration looks the item's measure up
(default `itemMeasure`), possibly records the first visible item, breaks
once the accumulated offset reaches `listOffset + scrollerMeasure`, then
advances the accumulated offset and appends the measure when inside the
visible region.  The loop counter `i` starts at 0; the fuel argument is the
number of remaining iterations `length - i`, so the Go guard `i < length`
corresponds exactly to nonzero fuel. -/
def overrideLoop (itemMeasure listOffset scrollerMeasure padding : ℚ)
    (ms : List (Int × ℚ)) : Nat → Int → OvAcc → OvAcc
  | 0, _, acc => acc
  | fuel + 1, i, acc =>
    let measure := lookupD ms i itemMeasure
    let acc1 :=
      if acc.offset ≤ listOffset - measure - padding then acc
      else if acc.offset ≤ listOffset then
        { acc with minItem := i, off := acc.offset, isVisible := true }
      else acc
    if listOffset + scrollerMeasure ≤ acc1.offset then acc1
    else
      let acc2 := { acc1 with offset := acc1.offset + measure + padding }
      let acc3 :=
        if acc2.isVisible then { acc2 with out := acc2.out ++ [measure] } else acc2
      overrideLoop itemMeasure listOffset scrollerMeasure padding ms fuel (i + 1) acc3

/-- `listLayout.calculateVisibleItemMeasures` (list.go lines 470-529),
vertical orientation.  Inputs: the uniform `itemMeasure` (the template
minimum size along the scroll axis), the item count `length`, the theme
`padding` (separator thickness between rows), the scroller (viewport)
extent, the current list scroll offset, the per-item measure override map
(`none` models a nil map), and the previous contents of the
`visibleItemMeasures` slice — kept untouched when the function returns
early on a non-positive viewport. -/
def calculateVisibleItemMeasures (itemMeasure : ℚ) (length : Int)
    (padding scrollerMeasure listOffset : ℚ)
    (itemMeasuresMap : Option (List (Int × ℚ))) (prev : List ℚ) : CalcResult :=
  if scrollerMeasure ≤ 0 then ⟨0, 0, prev⟩
  else
    let ms := itemMeasuresMap.getD []
    if ms.length = 0 then
      let paddedItemMeasure := itemMeasure + padding
      let off0 : ℚ := (qfloor (listOffset / paddedItemMeasure) : ℚ) * paddedItemMeasure
      let minItem0 : Int := qfloor (off0 / paddedItemMeasure)
      let maxItem0 : Int := qceil ((off0 + scrollerMeasure) / paddedItemMeasure)
      let minItem1 := if minItem0 > length - 1 then length - 1 else minItem0
      let minItem2 := if minItem1 < 0 then 0 else minItem1
      let off1 := if minItem1 < 0 then 0 else off0
      let maxItem1 := if maxItem0 > length - 1 then length - 1 else maxItem0
      ⟨off1, minItem2, List.replicate (maxItem1 - minItem2 + 1).toNat itemMeasure⟩
    else
      let acc := overrideLoop itemMeasure listOffset scrollerMeasure padding ms
        length.toNat 0 ⟨0, false, 0, 0, []⟩
      ⟨acc.off, acc.minItem, acc.out⟩

/-! ## Widget state (`List` struct) and its public operations

`ListW` carries the `List` fields that the operations under verification
read or write.  Function-valued fields (`Length`, `OnSelected`,
`OnUnselected`) are modelled by their presence and, for `Length`, the value
they return; the scroller is modelled by its along-axis offset and size
(vertical orientation).  Fields not touched by any claim (focus tracking,
renderer wiring) are omitted. -/
structure ListW where
  /-- `Length` callback: `none` models a nil function, `some n` a callback
  returning `n`. -/
  length : Option Int
  hasOnSelected : Bool
  hasOnUnselected : Bool
  /-- whether `l.scroller` is non-nil (renderer created). -/
  hasScroller : Bool
  selected : List Int
  /-- `itemMeasures` map; `none` models a nil map. -/
  itemMeasures : Option (List (Int × ℚ))
  itemMinW : ℚ
  itemMinH : ℚ
  /-- `l.scroller.Offset.Y`. -/
  scrollerOffsetY : ℚ
  /-- `l.scroller.Size().Height`. -/
  scrollerSizeH : ℚ
  /-- `l.offset`, kept in sync by `offsetUpdated`. -/
  offset : ℚ
deriving Repr, DecidableEq

/-- A notification fired through `OnSelected` / `OnUnselected`. -/
inductive SelEvent where
  | unselected (id : Int)
  | selected (id : Int)
deriving Repr, DecidableEq

/-- `listLayout.offsetUpdated` restricted to its effect on the widget
fields: no-op when the offset is unchanged, otherwise store the new offset.
The `updateList(true)` it then triggers acts on the layout state and is
modelled by `updateList` below. -/
def offsetUpdatedW (l : ListW) : ListW :=
  if l.offset = l.scrollerOffsetY then l else { l with offset := l.scrollerOffsetY }

/-- The `for i := 0; i < id; i++` accumulation in the private `scrollTo`
(list.go lines 217-225, vertical branch): running axis offset and the last
item's measure. -/
def scrollLoop (sep dfltH : ℚ) (m : List (Int × ℚ)) (id : Int) (i : Int)
    (acc : ℚ × ℚ) : ℚ × ℚ :=
  if _h : i < id then
    let h := lookupD m i dfltH
    scrollLoop sep dfltH m id (i + 1) (acc.1 + h + sep, h)
  else acc
termination_by (id - i).toNat
decreasing_by omega

/-- The private `(*List).scrollTo` (list.go lines 184-235), vertical branch;
`sep` is the theme padding.  Computes the target item's axis position,
adjusts the scroller offset to bring it into view, and propagates through
`offsetUpdated`. -/
def scrollToAux (sep : ℚ) (l : ListW) (id : Int) : ListW :=
  if !l.hasScroller then l
  else
    let ms := l.itemMeasures.getD []
    let axisLast : ℚ × ℚ :=
      if ms.length = 0 then ((id : ℚ) * l.itemMinH + (id : ℚ) * sep, l.itemMinH)
      else scrollLoop sep l.itemMinH ms id 0 (0, l.itemMinH)
    let axis := axisLast.1
    let lastItemMeasure := axisLast.2
    let offY :=
      if axis < l.scrollerOffsetY then axis
      else if l.scrollerOffsetY + l.scrollerSizeH < axis + l.itemMinH then
        axis + lastItemMeasure - l.scrollerSizeH
      else l.scrollerOffsetY
    offsetUpdatedW { l with scrollerOffsetY := offY }

/-- `(*List).Select` (list.go lines 249-272): no-op when the id is already
the first selection or out of `[0, length)`; otherwise replace the
selection, scroll to the id, and fire the deferred unselect-then-select
notification pair.  The second component lists the notifications fired, in
order. -/
def select (sep : ℚ) (l : ListW) (id : Int) : ListW × List SelEvent :=
  if 0 < l.selected.length ∧ id = l.selected.headI then (l, [])
  else
    let length := l.length.getD 0
    if id < 0 ∨ length ≤ id then (l, [])
    else
      let old := l.selected
      let l1 := scrollToAux sep { l with selected := [id] } id
      let evs :=
        (if l.hasOnUnselected ∧ 0 < old.length then [SelEvent.unselected old.headI] else [])
          ++ (if l.hasOnSelected then [SelEvent.selected id] else [])
      (l1, evs)

/-- `(*List).ScrollTo` (list.go lines 277-287): bounds-checked scroll to an
item (the trailing `Refresh` re-renders and does not change the modelled
state). -/
def scrollTo (sep : ℚ) (l : ListW) (id : Int) : ListW :=
  let length := l.length.getD 0
  if id < 0 ∨ length ≤ id then l
  else scrollToAux sep l id

/-- `(*List).SetItemMeasure` (list.go lines 168-182): allocate the map when
nil, decide whether a refresh is due by comparing against the map's current
value (Go zero value `0` when the key is absent), store the measure, and
refresh when due.  Returns the new state and the refresh flag. -/
def setItemMeasure (l : ListW) (id : Int) (measure : ℚ) : ListW × Bool :=
  let m := l.itemMeasures.getD []
  let refresh := decide (lookupD m id 0 ≠ measure)
  ({ l with itemMeasures := some (insertMeasure m id measure) }, refresh)

/-- The effective extent of an item: its override when present, else the
uniform template extent — the lookup pattern used throughout list.go
(e.g. lines 507-510, 218-220). -/
def effectiveExtent (m : List (Int × ℚ)) (dflt : ℚ) (id : Int) : ℚ :=
  lookupD m id dflt

/-- `(*List).contentMinSize` (list.go lines 431-463), vertical orientation;
returns (width, height).  With no overrides the aggregate extent is the
uniform stride times the count minus one trailing separator; with overrides
it is the sum of override extents for indices below the count plus the
template extent for the rest, plus `count - 1` separators. -/
def contentMinSize (l : ListW) (sep : ℚ) : ℚ × ℚ :=
  match l.length with
  | none => (0, 0)
  | some items =>
    let ms := l.itemMeasures.getD []
    if ms.length = 0 then
      (l.itemMinW, (l.itemMinH + sep) * (items : ℚ) - sep)
    else
      let custom := ms.filter (fun p => p.1 < items)
      let measure := (custom.map (fun p => p.2)).sum
        + ((items : ℚ) - (custom.length : ℚ)) * l.itemMinH
      (l.itemMinW, measure + sep * ((items : ℚ) - 1))

/-! ## Layout state and the window recompute pass (`listLayout.updateList`) -/

/-- One entry of the Visible Set: the item id, the identity tag of the
renderable instance bound to it, and the along-axis position and measure the
pass assigned to that instance (`c.Move` / `c.Resize`). -/
structure VisEntry where
  id : Int
  tag : Nat
  pos : ℚ
  measure : ℚ
deriving Repr, DecidableEq, Inhabited

/-- The `listLayout` state mutated by `updateList`: the Visible Set, the
children list, the separator elements (by identity tag), the
`visibleItemMeasures` scratch slice, and the Item Pool.  `nextTag` /
`nextSepTag` supply fresh identity tags for instances created by
`CreateItem` / `NewSeparator`. -/
structure LayoutState where
  visible : List VisEntry
  children : List Nat
  separators : List Nat
  visibleItemMeasures : List ℚ
  /-- Modelled from the spec: the Item Pool (`syncPool`, whose source is not
  under src/) is a thread-safe unordered bag of recyclable instances with no
  eviction; `Obtain` yields a pooled instance or reports absence, `Release`
  adds one back.  Modelled as a list of instance tags: `Obtain` takes the
  head, `Release` appends. -/
  itemPool : List Nat
  nextTag : Nat
  nextSepTag : Nat
deriving Repr, DecidableEq

/-- The `List` fields `updateList` reads, fixed for the duration of one
pass (vertical orientation). -/
structure ListInputs where
  length : Option Int
  /-- `itemMin.Height`: the uniform template measure. -/
  itemMinMeasure : ℚ
  /-- theme padding — the separator thickness used for spacing. -/
  padding : ℚ
  /-- `scroller.Size().Height`: viewport extent along the scroll axis. -/
  scrollerMeasure : ℚ
  listOffset : ℚ
  itemMeasures : Option (List (Int × ℚ))
  hideSeparators : Bool
  hasCreateItem : Bool
deriving Repr, DecidableEq

/-- Externally observable traffic of one `updateList` pass: instance tags
obtained from the Item Pool, instance tags released back to it, and the item
ids configured through `setupListItem` (hence the external `UpdateItem`
callback), each in order of occurrence. -/
structure UpdateEffects where
  obtained : List Nat
  released : List Nat
  configured : List Int
deriving Repr, DecidableEq

/-- Go `sort.Search(n, f)` specialised to the half-open interval `[i, j)`:
binary search for the least index at which `f` holds, assuming `f`
monotone. -/
def sortSearch (f : Nat → Bool) (i j : Nat) : Nat :=
  if _h : i < j then
    let m := (i + j) / 2
    if f m then sortSearch f i m else sortSearch f (m + 1) j
  else i
termination_by j - i
decreasing_by all_goals omega

/-- `listLayout.searchVisible` (list.go lines 936-943): binary search the
Visible Set for an item id, returning the bound instance's tag when
mounted. -/
def searchVisible (visible : List VisEntry) (id : Int) : Option Nat :=
  let ln := visible.length
  let idx := sortSearch (fun i => decide (id ≤ (visible.getD i default).id)) 0 ln
  if idx < ln ∧ (visible.getD idx default).id = id then
    some (visible.getD idx default).tag
  else none

/-- `listLayout.getItem` (list.go lines 719-729): obtain a pooled instance,
else create a fresh one via `CreateItem` when that factory is set.  Returns
the instance tag (or `none` for the factory-missing miss), the remaining
pool, the next fresh tag, and whether the instance came from the pool. -/
def getItem (hasCreateItem : Bool) (pool : List Nat) (nextTag : Nat) :
    Option Nat × List Nat × Nat × Bool :=
  match pool with
  | t :: rest => (some t, rest, nextTag, true)
  | [] =>
    if hasCreateItem then (some nextTag, [], nextTag + 1, false)
    else (none, [], nextTag, false)

/-- The `for index, itemMeasure := range l.visibleItemMeasures` loop of
`updateList` (list.go lines 817-841): position each visible item, reusing
the instance already mounted for that id when present in `wasVisible`,
otherwise drawing from the pool / factory; a factory-missing miss skips the
slot (Go `continue`), leaving the running axis untouched.  Returns the new
visible entries, the children tags, the remaining pool, the next fresh tag,
and the tags obtained from the pool. -/
def buildLoop (hasCreateItem : Bool) (padding : ℚ) (wasVisible : List VisEntry) :
    List ℚ → Int → ℚ → List Nat → Nat →
    List VisEntry × List Nat × List Nat × Nat × List Nat
  | [], _, _, pool, nextTag => ([], [], pool, nextTag, [])
  | m :: rest, item, axis, pool, nextTag =>
    match searchVisible wasVisible item with
    | some t =>
      let r := buildLoop hasCreateItem padding wasVisible rest (item + 1)
        (axis + m + padding) pool nextTag
      (⟨item, t, axis, m⟩ :: r.1, t :: r.2.1, r.2.2)
    | none =>
      match getItem hasCreateItem pool nextTag with
      | (some t, pool', nextTag', fromPool) =>
        let r := buildLoop hasCreateItem padding wasVisible rest (item + 1)
          (axis + m + padding) pool' nextTag'
        (⟨item, t, axis, m⟩ :: r.1, t :: r.2.1, r.2.2.1,
          r.2.2.2.1, if fromPool then t :: r.2.2.2.2 else r.2.2.2.2)
      | (none, pool', nextTag', _) =>
        buildLoop hasCreateItem padding wasVisible rest (item + 1) axis pool' nextTag'

/-- `listLayout.updateSeparators` (list.go lines 892-933) restricted to the
separator element management (the per-element positioning that follows
changes no element's existence and no claim concerns it): clear when hidden
or at most one child, otherwise truncate or grow the backing list to exactly
the number of children.  Returns the separator tags and next fresh tag. -/
def updateSeparators (hide : Bool) (numChildren : Nat) (seps : List Nat)
    (nextSepTag : Nat) : List Nat × Nat :=
  if hide then ([], nextSepTag)
  else if 1 < numChildren then
    if numChildren < seps.length then (seps.take numChildren, nextSepTag)
    else (seps ++ (List.range (numChildren - seps.length)).map (· + nextSepTag),
      nextSepTag + (numChildren - seps.length))
  else ([], nextSepTag)

/-- `listLayout.updateList` (list.go lines 778-890), vertical orientation.
Snapshot the Visible Set, recompute the window, return untouched (but for
the scratch measures slice) when nothing is computable yet while the count
is positive, otherwise rebuild the Visible Set and children, release the
instances whose ids left the window, refresh the separators, and configure
either the newly visible entries (`newOnly`) or all of them. -/
def updateList (inp : ListInputs) (newOnly : Bool) (st : LayoutState) :
    LayoutState × UpdateEffects :=
  let length := inp.length.getD 0
  let wasVisible := st.visible
  let cres := calculateVisibleItemMeasures inp.itemMinMeasure length inp.padding
    inp.scrollerMeasure inp.listOffset inp.itemMeasures st.visibleItemMeasures
  if cres.visibleItemMeasures.length = 0 ∧ 0 < length then
    ({ st with visibleItemMeasures := cres.visibleItemMeasures }, ⟨[], [], []⟩)
  else
    let b := buildLoop inp.hasCreateItem inp.padding wasVisible
      cres.visibleItemMeasures cres.minItem cres.off st.itemPool st.nextTag
    let visible := b.1
    let children := b.2.1
    let pool1 := b.2.2.1
    let nextTag1 := b.2.2.2.1
    let obtained := b.2.2.2.2
    let released := (wasVisible.filter
      (fun e => (searchVisible visible e.id).isNone)).map (fun e => e.tag)
    let seps := updateSeparators inp.hideSeparators children.length st.separators
      st.nextSepTag
    let configured :=
      if newOnly then
        (visible.filter (fun e => (searchVisible wasVisible e.id).isNone)).map
          (fun e => e.id)
      else visible.map (fun e => e.id)
    ({ visible := visible, children := children, separators := seps.1,
       visibleItemMeasures := cres.visibleItemMeasures,
       itemPool := pool1 ++ released, nextTag := nextTag1,
       nextSepTag := seps.2 }, ⟨obtained, released, configured⟩)

/-! ## Claims C1–C6 -/

/-- C1 counterexample: with uniform extent 20, separator thickness 2,
viewport 100, count 100 and offset 0, the calculator produces SIX visible
extents starting at index 0 — the window covers indices 0 through 5, not
0 through 4 (five items) as claimed. -/
theorem c1_counterexample :
    (calculateVisibleItemMeasures 20 100 2 100 0 none []).minItem = 0 ∧
    (calculateVisibleItemMeasures 20 100 2 100 0 none []).visibleItemMeasures.length ≠ 5 := by
  have h : ⌈(50 : ℚ) / 11⌉ = 5 := by
    rw [Int.ceil_eq_iff]; norm_num
  simp only [calculateVisibleItemMeasures, qfloor, qceil]
  norm_num [h]
  decide

/-- C1 (amended): with uniform item extent 20, separator thickness 2,
viewport extent 100, item count 100 and scroll offset 0, the Visible Window
Calculator computes a window covering indices 0 through 5 — six items of
extent 20, where the item at index 4 is the last partially visible one and
the item at index 5 (positioned at offset 110, past the viewport) is also
included because `maxItem = ceil((0+100)/22) = 5`. -/
theorem c1_uniform_window_six_items :
    calculateVisibleItemMeasures 20 100 2 100 0 none [] =
      ⟨0, 0, List.replicate 6 20⟩ := by
  have h : ⌈(50 : ℚ) / 11⌉ = 5 := by
    rw [Int.ceil_eq_iff]; norm_num
  simp only [calculateVisibleItemMeasures, qfloor, qceil]
  norm_num [h]
  rfl

/-- Concrete calculator run used by the C2 counterexample: viewport 10,
uniform extent 20, separator 2, count 10, offset 0 — the window holds two
items (`maxItem = ceil(10/22) = 1`). -/
theorem calc_two_item_window :
    calculateVisibleItemMeasures 20 10 2 10 0 none [] = ⟨0, 0, [20, 20]⟩ := by
  have h : ⌈(5 : ℚ) / 11⌉ = 1 := by
    rw [Int.ceil_eq_iff]; norm_num
  simp only [calculateVisibleItemMeasures, qfloor, qceil]
  norm_num [h]
  rfl

/-- C2 counterexample: a recompute that mounts two visible items yields TWO
separator elements, not `max(0, 2-1) = 1` as claimed — `updateSeparators`
grows the separator list to `len(children)`, one element per child, the
first of which is never positioned. -/
theorem c2_counterexample :
    (updateList ⟨some 10, 20, 2, 10, 0, none, false, true⟩ true
        ⟨[], [], [], [], [], 0, 0⟩).1.children.length = 2 ∧
    (updateList ⟨some 10, 20, 2, 10, 0, none, false, true⟩ true
        ⟨[], [], [], [], [], 0, 0⟩).1.separators.length ≠
      (updateList ⟨some 10, 20, 2, 10, 0, none, false, true⟩ true
        ⟨[], [], [], [], [], 0, 0⟩).1.children.length - 1 := by
  have hs : ∀ id : Int, searchVisible [] id = none := by
    intro id
    simp [searchVisible, sortSearch]
  have hb : buildLoop true 2 [] [20, 20] 0 0 [] 0 =
      ([⟨0, 0, 0, 20⟩, ⟨1, 1, 22, 20⟩], [0, 1], [], 2, []) := by
    norm_num [buildLoop, hs, getItem]
  norm_num [updateList, calc_two_item_window, hb, hs, updateSeparators]

/-- C2 (amended): after every window recompute with `k` currently-visible
items and the hide-separators option unset, the Separator Manager keeps
exactly `k` divider elements when `k ≥ 2` (one per child; the element at
index 0 exists but is never positioned or shown) and none when `k ≤ 1`;
when hide-separators is set it keeps none. -/
theorem c2_separator_count (hide : Bool) (k : Nat) (seps : List Nat) (t : Nat) :
    ((updateSeparators hide k seps t).1).length =
      if hide then 0 else if 1 < k then k else 0 := by
  unfold updateSeparators
  split
  · rfl
  · split
    · split
      · simp only [List.length_take]
        omega
      · simp only [List.length_append, List.length_map, List.length_range]
        omega
    · rfl

/-- C3 counterexample: with count 3, `SetItemMeasure(5, 50)` — index 5 out
of `[0, 3)` — is NOT ignored: it stores the override 5 ↦ 50 (changing the
measure map) and triggers a refresh. -/
theorem c3_counterexample :
    (setItemMeasure ⟨some 3, false, false, true, [], none, 10, 20, 0, 50, 0⟩
        5 50).1.itemMeasures ≠
      (⟨some 3, false, false, true, [], none, 10, 20, 0, 50, 0⟩ : ListW).itemMeasures ∧
    (setItemMeasure ⟨some 3, false, false, true, [], none, 10, 20, 0, 50, 0⟩
        5 50).2 = true := by
  constructor
  · simp [setItemMeasure]
  · simp [setItemMeasure, lookupD, lookup]

/-- C3 (amended): for every index outside `[0, count)`, `Select` and
`ScrollTo` leave all state unchanged and fire no notification; but
`SetItemMeasure` performs no bounds check — it stores the override for any
index (the entry is merely ignored by aggregate computations and retained in
the map). -/
theorem c3_out_of_range (l : ListW) (sep e : ℚ) (id : Int)
    (h : id < 0 ∨ l.length.getD 0 ≤ id) :
    select sep l id = (l, []) ∧ scrollTo sep l id = l ∧
      (setItemMeasure l id e).1.itemMeasures =
        some (insertMeasure (l.itemMeasures.getD []) id e) := by
  refine ⟨?_, ?_, rfl⟩
  · unfold select
    split
    · rfl
    · rw [if_pos h]
  · unfold scrollTo
    rw [if_pos h]

/-- C3 witness: the amended theorem applied at index 5 with count 3. -/
theorem c3_out_of_range_witness :
    select 2 ⟨some 3, false, false, true, [], none, 10, 20, 0, 50, 0⟩ 5 =
      (⟨some 3, false, false, true, [], none, 10, 20, 0, 50, 0⟩, []) ∧
    scrollTo 2 ⟨some 3, false, false, true, [], none, 10, 20, 0, 50, 0⟩ 5 =
      ⟨some 3, false, false, true, [], none, 10, 20, 0, 50, 0⟩ ∧
    (setItemMeasure ⟨some 3, false, false, true, [], none, 10, 20, 0, 50, 0⟩
        5 50).1.itemMeasures = some [(5, 50)] := by
  have h := c3_out_of_range ⟨some 3, false, false, true, [], none, 10, 20, 0, 50, 0⟩
    2 50 5 (Or.inr (by norm_num))
  refine ⟨h.1, h.2.1, ?_⟩
  rw [h.2.2]
  rfl

/-- C4 counterexample: with no override stored and a uniform default extent
of 20, `SetItemMeasure(0, 20)` — the new value EQUAL to the current
effective extent — still signals a change (triggers a refresh), because the
code compares against the map's zero value 0, not the default extent. -/
theorem c4_counterexample :
    effectiveExtent
        ((⟨some 3, false, false, true, [], none, 10, 20, 0, 50, 0⟩ : ListW).itemMeasures.getD [])
        (⟨some 3, false, false, true, [], none, 10, 20, 0, 50, 0⟩ : ListW).itemMinH 0 = 20 ∧
    (setItemMeasure ⟨some 3, false, false, true, [], none, 10, 20, 0, 50, 0⟩
        0 20).2 = true := by
  constructor
  · simp [effectiveExtent, lookupD, lookup]
  · simp [setItemMeasure, lookupD, lookup]

/-- C4 (amended): `SetItemMeasure(i, e)` signals "no change" (triggers no
refresh) if and only if `e` equals the existing override when one is
present, else the Go map zero value 0 — NOT the uniform default extent. -/
theorem c4_no_refresh_iff (l : ListW) (id : Int) (e : ℚ) :
    (setItemMeasure l id e).2 = false ↔
      (match lookup (l.itemMeasures.getD []) id with
       | some v => e = v
       | none => e = 0) := by
  unfold setItemMeasure
  rcases hl : lookup (l.itemMeasures.getD []) id with _ | v
  · simp only [lookupD, hl, Option.getD_none, decide_eq_false_iff_not, ne_eq, not_not]
    exact eq_comm
  · simp only [lookupD, hl, Option.getD_some, decide_eq_false_iff_not, ne_eq, not_not]
    exact eq_comm

/-- C5 counterexample: with count 0, uniform extent 20 and separator
thickness 2, `contentMinSize` returns aggregate extent −2 along the scroll
axis (the formula `(h+sep)*count − sep` evaluated at count 0), not 0. -/
theorem c5_counterexample :
    (contentMinSize ⟨some 0, false, false, true, [], none, 10, 20, 0, 50, 0⟩ 2).2 = -2 ∧
    (contentMinSize ⟨some 0, false, false, true, [], none, 10, 20, 0, 50, 0⟩ 2).2 ≠ 0 := by
  constructor <;> norm_num [contentMinSize]

/-- C5 (amended): when the item count is 0, the aggregate content extent
along the scroll axis computed by `contentMinSize` equals MINUS the
separator thickness (hence 0 only when the separator thickness is 0),
regardless of stored measure overrides at non-negative indices. -/
theorem c5_zero_count_aggregate (l : ListW) (sep : ℚ) (h0 : l.length = some 0)
    (hm : ∀ p ∈ l.itemMeasures.getD [], 0 ≤ p.1) :
    (contentMinSize l sep).2 = -sep := by
  have hfil : List.filter (fun p => decide (p.1 < 0)) (l.itemMeasures.getD []) = [] := by
    rw [List.filter_eq_nil_iff]
    intro p hp
    have h1 := hm p hp
    simp only [decide_eq_true_eq]
    omega
  simp only [contentMinSize, h0]
  split
  · push_cast
    ring
  · rw [hfil]
    simp only [List.map_nil, List.sum_nil, List.length_nil]
    push_cast
    ring

/-- C5 witness: the amended theorem at count 0 with an override stored at
index 2 and separator thickness 3. -/
theorem c5_zero_count_aggregate_witness :
    (contentMinSize ⟨some 0, false, false, true, [], some [(2, 7)], 10, 20, 0, 50, 0⟩ 3).2 = -3 :=
  c5_zero_count_aggregate _ 3 rfl (by simp)

/-- C6 counterexample: with a zero viewport extent, the calculator does NOT
yield an empty window — it returns early without clearing, leaving the
previously computed sequence of visible extents ([20] here) in place. -/
theorem c6_counterexample :
    (calculateVisibleItemMeasures 20 1 2 0 0 none [20]).visibleItemMeasures = [20] ∧
    (calculateVisibleItemMeasures 20 1 2 0 0 none [20]).visibleItemMeasures ≠ [] := by
  constructor <;> simp [calculateVisibleItemMeasures]

/-- C6 (amended): when the viewport extent is non-positive the calculator
returns early (no panic) leaving the previously computed visible-extents
sequence untouched — so the window is empty only if it was already empty;
when the item count is 0 and the viewport is positive it yields an empty
window. -/
theorem c6_degenerate_window (im : ℚ) (len : Int) (p v loff : ℚ)
    (mm : Option (List (Int × ℚ))) (prev : List ℚ) :
    (v ≤ 0 → calculateVisibleItemMeasures im len p v loff mm prev = ⟨0, 0, prev⟩) ∧
    (len = 0 → 0 < v →
      (calculateVisibleItemMeasures im len p v loff mm prev).visibleItemMeasures = []) := by
  constructor
  · intro hv
    unfold calculateVisibleItemMeasures
    rw [if_pos hv]
  · intro hlen hv
    subst hlen
    simp only [calculateVisibleItemMeasures]
    rw [if_neg (not_le.mpr hv)]
    split
    · simp only [List.replicate_eq_nil_iff]
      split_ifs <;> omega
    · simp only [Int.toNat_zero, overrideLoop]

/-! ## Binary search correctness over the sorted Visible Set -/

/-- `sort.Search` on an empty interval returns the lower bound. -/
theorem sortSearch_stop (f : Nat → Bool) (i j : Nat) (h : ¬ i < j) :
    sortSearch f i j = i := by
  rw [sortSearch.eq_def, dif_neg h]

/-- One probing step of `sort.Search`. -/
theorem sortSearch_step (f : Nat → Bool) (i j : Nat) (h : i < j) :
    sortSearch f i j =
      if f ((i + j) / 2) then sortSearch f i ((i + j) / 2)
      else sortSearch f ((i + j) / 2 + 1) j := by
  rw [sortSearch.eq_def, dif_pos h]

/-- Characterization of `sort.Search` on a monotone predicate: it returns
the least index of `[i, j)` where the predicate holds (or `j`). -/
theorem sortSearch_spec (f : Nat → Bool) :
    ∀ fuel i j, i ≤ j → j - i ≤ fuel →
      (∀ a b, a ≤ b → b < j → f a = true → f b = true) →
      i ≤ sortSearch f i j ∧ sortSearch f i j ≤ j ∧
        (∀ k, i ≤ k → k < sortSearch f i j → f k = false) ∧
        (∀ k, sortSearch f i j ≤ k → k < j → f k = true) := by
  intro fuel
  induction fuel with
  | zero =>
    intro i j hij hfuel _hmono
    have hji : j = i := by omega
    subst hji
    rw [sortSearch_stop f j j (by omega)]
    refine ⟨Nat.le_refl j, Nat.le_refl j, ?_, ?_⟩ <;> intro k h1 h2 <;> omega
  | succ n ih =>
    intro i j hij hfuel hmono
    by_cases h : i < j
    · rw [sortSearch_step f i j h]
      have hmi : i ≤ (i + j) / 2 := by omega
      have hmj : (i + j) / 2 < j := by omega
      by_cases hfm : f ((i + j) / 2) = true
      · rw [if_pos hfm]
        obtain ⟨h1, h2, h3, h4⟩ := ih i ((i + j) / 2) hmi (by omega)
          (fun a b hab hbm hfa => hmono a b hab (by omega) hfa)
        refine ⟨h1, by omega, h3, ?_⟩
        intro k hk1 hk2
        by_cases hkm : k < (i + j) / 2
        · exact h4 k hk1 hkm
        · exact hmono ((i + j) / 2) k (by omega) hk2 hfm
      · rw [if_neg hfm]
        obtain ⟨h1, h2, h3, h4⟩ := ih ((i + j) / 2 + 1) j (by omega) (by omega) hmono
        refine ⟨by omega, h2, ?_, h4⟩
        intro k hk1 hk2
        by_cases hkm : (i + j) / 2 + 1 ≤ k
        · exact h3 k hkm hk2
        · cases hfk : f k
          · rfl
          · exact absurd (hmono k ((i + j) / 2) (by omega) (by omega) hfk) hfm
    · rw [sortSearch_stop f i j h]
      refine ⟨Nat.le_refl i, hij, ?_, ?_⟩ <;> intro k h1 h2 <;> omega

/-- On a strictly ascending Visible Set, `searchVisible` finds every mounted
entry and returns its instance's tag. -/
theorem searchVisible_mem (l : List VisEntry)
    (hs : l.Pairwise (fun a b => a.id < b.id)) (e : VisEntry) (he : e ∈ l) :
    searchVisible l e.id = some e.tag := by
  obtain ⟨k, hk, hke⟩ := List.mem_iff_getElem.mp he
  have hid : ∀ a b, a < l.length → b < l.length → a < b →
      (l.getD a default).id < (l.getD b default).id := by
    intro a b ha hb hab
    rw [List.getD_eq_getElem _ _ ha, List.getD_eq_getElem _ _ hb]
    exact List.pairwise_iff_getElem.mp hs a b ha hb hab
  have hmono : ∀ a b, a ≤ b → b < l.length →
      (fun i => decide (e.id ≤ (l.getD i default).id)) a = true →
      (fun i => decide (e.id ≤ (l.getD i default).id)) b = true := by
    intro a b hab hb hfa
    simp only [decide_eq_true_eq] at hfa ⊢
    rcases Nat.eq_or_lt_of_le hab with h | hlt
    · rw [← h]; exact hfa
    · exact le_trans hfa (le_of_lt (hid a b (by omega) hb hlt))
  obtain ⟨h1, h2, h3, h4⟩ := sortSearch_spec
    (fun i => decide (e.id ≤ (l.getD i default).id)) l.length 0 l.length
    (by omega) (by omega) hmono
  have hfk : decide (e.id ≤ (l.getD k default).id) = true := by
    simp only [decide_eq_true_eq]
    rw [List.getD_eq_getElem _ _ hk, hke]
  have hrk : sortSearch (fun i => decide (e.id ≤ (l.getD i default).id)) 0 l.length ≤ k := by
    by_contra hc
    have h5 := h3 k (by omega) (by omega)
    rw [hfk] at h5
    simp at h5
  have hrlen : sortSearch (fun i => decide (e.id ≤ (l.getD i default).id)) 0 l.length
      < l.length := by omega
  have hfr := h4 _ (Nat.le_refl _) hrlen
  simp only [decide_eq_true_eq] at hfr
  have hre : sortSearch (fun i => decide (e.id ≤ (l.getD i default).id)) 0 l.length = k := by
    rcases Nat.eq_or_lt_of_le hrk with h | hlt
    · exact h
    · exfalso
      have h6 := hid _ k hrlen hk hlt
      rw [List.getD_eq_getElem _ _ hk, hke] at h6
      omega
  simp only [searchVisible]
  rw [hre]
  rw [if_pos ⟨hk, by rw [List.getD_eq_getElem _ _ hk, hke]⟩]
  rw [List.getD_eq_getElem _ _ hk, hke]

/-- `searchVisible` misses every id that is not mounted. -/
theorem searchVisible_none (l : List VisEntry) (id : Int)
    (h : ∀ e ∈ l, e.id ≠ id) : searchVisible l id = none := by
  simp only [searchVisible]
  split
  · rename_i hcond
    exfalso
    refine h (l.getD (sortSearch (fun i => decide (id ≤ (l.getD i default).id)) 0 l.length)
      default) ?_ hcond.2
    rw [List.getD_eq_getElem _ _ hcond.1]
    exact List.getElem_mem _
  · rfl

/-! ## Shape of a freshly built window -/

/-- The shape of a complete window built from the extents `measures`
starting at item id `item` and axis position `axis`: consecutive ids,
positions advancing by measure plus separator thickness. -/
def windowShape (padding : ℚ) : List ℚ → Int → ℚ → List VisEntry → Prop
  | [], _, _, vis => vis = []
  | m :: rest, item, axis, vis =>
    ∃ t vis', vis = ⟨item, t, axis, m⟩ :: vis' ∧
      windowShape padding rest (item + 1) (axis + m + padding) vis'

/-- Every entry of a shaped window has id at least the starting id. -/
theorem windowShape_id_le (padding : ℚ) :
    ∀ (ms : List ℚ) (item : Int) (axis : ℚ) (vis : List VisEntry),
      windowShape padding ms item axis vis → ∀ e ∈ vis, item ≤ e.id := by
  intro ms
  induction ms with
  | nil =>
    intro item axis vis hw e he
    rw [hw] at he
    cases he
  | cons m rest ih =>
    intro item axis vis hw e he
    obtain ⟨t, vis', rfl, hw'⟩ := hw
    rcases List.mem_cons.mp he with rfl | he'
    · exact le_refl _
    · have := ih (item + 1) (axis + m + padding) vis' hw' e he'
      omega

/-- A shaped window is strictly ascending by id. -/
theorem windowShape_sorted (padding : ℚ) :
    ∀ (ms : List ℚ) (item : Int) (axis : ℚ) (vis : List VisEntry),
      windowShape padding ms item axis vis →
      vis.Pairwise (fun a b => a.id < b.id) := by
  intro ms
  induction ms with
  | nil =>
    intro item axis vis hw
    rw [hw]
    exact List.Pairwise.nil
  | cons m rest ih =>
    intro item axis vis hw
    obtain ⟨t, vis', rfl, hw'⟩ := hw
    refine List.pairwise_cons.mpr ⟨?_, ih _ _ _ hw'⟩
    intro e he
    have := windowShape_id_le padding rest (item + 1) (axis + m + padding) vis' hw' e he
    simp only
    omega

/-! ## Build-loop lemmas -/

/-- Every entry built by the positioning loop has id at least the starting
item id (whatever the pool, factory and previous window contents). -/
theorem buildLoop_id_le (hc : Bool) (padding : ℚ) (was : List VisEntry) :
    ∀ (ms : List ℚ) (item : Int) (axis : ℚ) (pool : List Nat) (tag : Nat),
      ∀ e ∈ (buildLoop hc padding was ms item axis pool tag).1, item ≤ e.id := by
  intro ms
  induction ms with
  | nil =>
    intro item axis pool tag e he
    simp [buildLoop] at he
  | cons m rest ih =>
    intro item axis pool tag e he
    simp only [buildLoop] at he
    rcases hsv : searchVisible was item with _ | t
    · rw [hsv] at he
      rcases hgi : getItem hc pool tag with ⟨o, pool', tag', fromPool⟩
      rw [hgi] at he
      rcases o with _ | t
      · dsimp only at he
        have := ih (item + 1) axis pool' tag' e he
        omega
      · dsimp only at he
        rcases List.mem_cons.mp he with rfl | he'
        · exact le_refl _
        · have := ih (item + 1) (axis + m + padding) pool' tag' e he'
          omega
    · rw [hsv] at he
      dsimp only at he
      rcases List.mem_cons.mp he with rfl | he'
      · exact le_refl _
      · have := ih (item + 1) (axis + m + padding) pool tag e he'
        omega

/-- The Visible Set built by the positioning loop is strictly ascending by
id, by construction — ids are taken in ascending order, with misses merely
skipped. -/
theorem buildLoop_sorted (hc : Bool) (padding : ℚ) (was : List VisEntry) :
    ∀ (ms : List ℚ) (item : Int) (axis : ℚ) (pool : List Nat) (tag : Nat),
      ((buildLoop hc padding was ms item axis pool tag).1).Pairwise
        (fun a b => a.id < b.id) := by
  intro ms
  induction ms with
  | nil =>
    intro item axis pool tag
    simp [buildLoop]
  | cons m rest ih =>
    intro item axis pool tag
    simp only [buildLoop]
    rcases hsv : searchVisible was item with _ | t
    · rcases hgi : getItem hc pool tag with ⟨o, pool', tag', fromPool⟩
      rcases o with _ | t
      · dsimp only
        exact ih (item + 1) axis pool' tag'
      · dsimp only
        refine List.pairwise_cons.mpr ⟨?_, ih (item + 1) (axis + m + padding) pool' tag'⟩
        intro e he
        have := buildLoop_id_le hc padding was rest (item + 1) (axis + m + padding) pool' tag' e he
        simp only
        omega
    · dsimp only
      refine List.pairwise_cons.mpr ⟨?_, ih (item + 1) (axis + m + padding) pool tag⟩
      intro e he
      have := buildLoop_id_le hc padding was rest (item + 1) (axis + m + padding) pool tag e he
      simp only
      omega

/-- With the factory present, `getItem` always yields an instance: from the
pool head when available, else freshly created. -/
theorem getItem_isSome (pool : List Nat) (tag : Nat) :
    ∃ t pool' tag' fp, getItem true pool tag = (some t, pool', tag', fp) := by
  cases pool <;> simp [getItem]

/-- With the item factory present, the positioning loop never skips a slot:
the Visible Set it builds has exactly the window's shape. -/
theorem buildLoop_shape (padding : ℚ) (was : List VisEntry) :
    ∀ (ms : List ℚ) (item : Int) (axis : ℚ) (pool : List Nat) (tag : Nat),
      windowShape padding ms item axis
        (buildLoop true padding was ms item axis pool tag).1 := by
  intro ms
  induction ms with
  | nil =>
    intro item axis pool tag
    simp [buildLoop, windowShape]
  | cons m rest ih =>
    intro item axis pool tag
    simp only [buildLoop]
    rcases hsv : searchVisible was item with _ | t
    · obtain ⟨t', pool', tag', fp, hgi⟩ := getItem_isSome pool tag
      rw [hgi]
      exact ⟨t', _, rfl, ih (item + 1) (axis + m + padding) pool' tag'⟩
    · exact ⟨t, _, rfl, ih (item + 1) (axis + m + padding) pool tag⟩

/-- Rebuilding a window over a snapshot that already mounts exactly that
window reuses every entry: the loop returns the snapshot itself, with no
pool traffic and no fresh instances. -/
theorem buildLoop_fixpoint (hc : Bool) (padding : ℚ) (was : List VisEntry)
    (hsorted : was.Pairwise (fun a b => a.id < b.id)) :
    ∀ (ms : List ℚ) (item : Int) (axis : ℚ) (vis : List VisEntry)
      (pool : List Nat) (tag : Nat),
      windowShape padding ms item axis vis → (∀ e ∈ vis, e ∈ was) →
      buildLoop hc padding was ms item axis pool tag =
        (vis, vis.map (fun e => e.tag), pool, tag, []) := by
  intro ms
  induction ms with
  | nil =>
    intro item axis vis pool tag hw _hsub
    rw [hw]
    simp [buildLoop]
  | cons m rest ih =>
    intro item axis vis pool tag hw hsub
    obtain ⟨t, vis', rfl, hw'⟩ := hw
    have hmem : (⟨item, t, axis, m⟩ : VisEntry) ∈ was := hsub _ (List.mem_cons_self _ _)
    have hsv : searchVisible was item = some t :=
      searchVisible_mem was hsorted ⟨item, t, axis, m⟩ hmem
    simp only [buildLoop, hsv]
    rw [ih (item + 1) (axis + m + padding) vis' pool tag hw'
      (fun e he => hsub e (List.mem_cons_of_mem _ he))]
    rfl

/-! ## Behaviour of one full `updateList` pass -/

/-- The early-return branch of `updateList`: when nothing is computable yet
while the count is positive, only the scratch measures slice is written. -/
theorem updateList_early (inp : ListInputs) (b : Bool) (st : LayoutState)
    (h : (calculateVisibleItemMeasures inp.itemMinMeasure (inp.length.getD 0) inp.padding
        inp.scrollerMeasure inp.listOffset inp.itemMeasures
        st.visibleItemMeasures).visibleItemMeasures.length = 0 ∧ 0 < inp.length.getD 0) :
    updateList inp b st =
      ({ st with visibleItemMeasures :=
          (calculateVisibleItemMeasures inp.itemMinMeasure (inp.length.getD 0) inp.padding
            inp.scrollerMeasure inp.listOffset inp.itemMeasures
            st.visibleItemMeasures).visibleItemMeasures }, ⟨[], [], []⟩) := by
  dsimp only [updateList]
  rw [if_pos h]

/-- Feeding the calculator its own output back as the previous scratch
contents reproduces the same result: with a positive viewport the previous
contents are ignored, and with a non-positive one they are returned
unchanged. -/
theorem calculateVisibleItemMeasures_idem (im : ℚ) (len : Int) (p v loff : ℚ)
    (mm : Option (List (Int × ℚ))) (prev : List ℚ) :
    calculateVisibleItemMeasures im len p v loff mm
      (calculateVisibleItemMeasures im len p v loff mm prev).visibleItemMeasures
      = calculateVisibleItemMeasures im len p v loff mm prev := by
  by_cases hv : v ≤ 0
  · have h1 : calculateVisibleItemMeasures im len p v loff mm prev = ⟨0, 0, prev⟩ := by
      unfold calculateVisibleItemMeasures
      rw [if_pos hv]
    rw [h1]
    exact h1
  · have h2 : ∀ prev1 prev2 : List ℚ,
        calculateVisibleItemMeasures im len p v loff mm prev1 =
        calculateVisibleItemMeasures im len p v loff mm prev2 := by
      intro prev1 prev2
      unfold calculateVisibleItemMeasures
      rw [if_neg hv, if_neg hv]
    exact h2 _ _

/-- After a non-early pass with the factory present, the Visible Set has
exactly the shape of the window that the calculator — re-run on the pass's
own scratch output — describes. -/
theorem updateList_shape (inp : ListInputs) (b : Bool) (st : LayoutState)
    (hc : inp.hasCreateItem = true)
    (hne : ¬ ((calculateVisibleItemMeasures inp.itemMinMeasure (inp.length.getD 0) inp.padding
        inp.scrollerMeasure inp.listOffset inp.itemMeasures
        st.visibleItemMeasures).visibleItemMeasures.length = 0 ∧ 0 < inp.length.getD 0)) :
    windowShape inp.padding
      (calculateVisibleItemMeasures inp.itemMinMeasure (inp.length.getD 0) inp.padding
        inp.scrollerMeasure inp.listOffset inp.itemMeasures
        (updateList inp b st).1.visibleItemMeasures).visibleItemMeasures
      (calculateVisibleItemMeasures inp.itemMinMeasure (inp.length.getD 0) inp.padding
        inp.scrollerMeasure inp.listOffset inp.itemMeasures
        (updateList inp b st).1.visibleItemMeasures).minItem
      (calculateVisibleItemMeasures inp.itemMinMeasure (inp.length.getD 0) inp.padding
        inp.scrollerMeasure inp.listOffset inp.itemMeasures
        (updateList inp b st).1.visibleItemMeasures).off
      ((updateList inp b st).1.visible) := by
  dsimp only [updateList]
  rw [if_neg hne]
  dsimp only
  rw [calculateVisibleItemMeasures_idem]
  rw [hc]
  exact buildLoop_shape _ _ _ _ _ _ _

/-- Recomputing over a state whose Visible Set already mounts exactly the
window that its own calculator run describes is a no-op on the Visible Set,
with no pool traffic. -/
theorem updateList_fix (inp : ListInputs) (b : Bool) (st1 : LayoutState)
    (hshape : windowShape inp.padding
      (calculateVisibleItemMeasures inp.itemMinMeasure (inp.length.getD 0) inp.padding
        inp.scrollerMeasure inp.listOffset inp.itemMeasures
        st1.visibleItemMeasures).visibleItemMeasures
      (calculateVisibleItemMeasures inp.itemMinMeasure (inp.length.getD 0) inp.padding
        inp.scrollerMeasure inp.listOffset inp.itemMeasures
        st1.visibleItemMeasures).minItem
      (calculateVisibleItemMeasures inp.itemMinMeasure (inp.length.getD 0) inp.padding
        inp.scrollerMeasure inp.listOffset inp.itemMeasures
        st1.visibleItemMeasures).off
      st1.visible)
    (hne : ¬ ((calculateVisibleItemMeasures inp.itemMinMeasure (inp.length.getD 0) inp.padding
        inp.scrollerMeasure inp.listOffset inp.itemMeasures
        st1.visibleItemMeasures).visibleItemMeasures.length = 0 ∧ 0 < inp.length.getD 0)) :
    (updateList inp b st1).1.visible = st1.visible ∧
    (updateList inp b st1).2.obtained = [] ∧
    (updateList inp b st1).2.released = [] ∧
    (updateList inp b st1).1.itemPool = st1.itemPool ∧
    (updateList inp b st1).1.nextTag = st1.nextTag := by
  have hsort := windowShape_sorted inp.padding _ _ _ _ hshape
  have hfix := buildLoop_fixpoint inp.hasCreateItem inp.padding st1.visible hsort
    _ _ _ st1.visible st1.itemPool st1.nextTag hshape (fun e he => he)
  have hrel : st1.visible.filter (fun e => (searchVisible st1.visible e.id).isNone) = [] := by
    rw [List.filter_eq_nil_iff]
    intro e he
    rw [searchVisible_mem st1.visible hsort e he]
    simp
  dsimp only [updateList]
  rw [if_neg hne]
  rw [hfix]
  dsimp only
  rw [hrel]
  refine ⟨rfl, rfl, rfl, by simp, rfl⟩

/-! ## Claims C7, C8, C10 -/

/-- C7: the Visible Set is strictly ascending by index and duplicate-free
after every window recompute — a freshly built window is ascending by
construction, and an aborted recompute leaves the (already ascending)
Visible Set untouched. -/
theorem c7_visible_sorted (inp : ListInputs) (b : Bool) (st : LayoutState)
    (h : st.visible.Pairwise (fun a b => a.id < b.id)) :
    ((updateList inp b st).1.visible).Pairwise (fun a b => a.id < b.id) := by
  dsimp only [updateList]
  split
  · exact h
  · exact buildLoop_sorted _ _ _ _ _ _ _ _

/-- C7 witness: a recompute from the empty initial state yields an ascending
Visible Set. -/
theorem c7_visible_sorted_witness :
    ((updateList ⟨some 5, 20, 2, 0, 0, none, false, true⟩ true
        ⟨[], [], [], [], [], 0, 0⟩).1.visible).Pairwise (fun a b => a.id < b.id) :=
  c7_visible_sorted ⟨some 5, 20, 2, 0, 0, none, false, true⟩ true
    ⟨[], [], [], [], [], 0, 0⟩ List.Pairwise.nil

/-- C8: with the item factory configured, running the window recompute twice
with unchanged inputs yields an identical Visible Set on the second run —
same indices, same instance tags, same positions — and the second run
obtains nothing from and releases nothing to the Item Pool (pool contents
and fresh-instance counter both unchanged). -/
theorem c8_recompute_idempotent (inp : ListInputs) (b1 b2 : Bool) (st : LayoutState)
    (hc : inp.hasCreateItem = true) :
    (updateList inp b2 (updateList inp b1 st).1).1.visible =
      (updateList inp b1 st).1.visible ∧
    (updateList inp b2 (updateList inp b1 st).1).2.obtained = [] ∧
    (updateList inp b2 (updateList inp b1 st).1).2.released = [] ∧
    (updateList inp b2 (updateList inp b1 st).1).1.itemPool =
      (updateList inp b1 st).1.itemPool ∧
    (updateList inp b2 (updateList inp b1 st).1).1.nextTag =
      (updateList inp b1 st).1.nextTag := by
  by_cases he : ((calculateVisibleItemMeasures inp.itemMinMeasure (inp.length.getD 0)
      inp.padding inp.scrollerMeasure inp.listOffset inp.itemMeasures
      st.visibleItemMeasures).visibleItemMeasures.length = 0 ∧ 0 < inp.length.getD 0)
  · rw [updateList_early inp b1 st he]
    dsimp only
    have he2 : (calculateVisibleItemMeasures inp.itemMinMeasure (inp.length.getD 0)
        inp.padding inp.scrollerMeasure inp.listOffset inp.itemMeasures
        ({ st with visibleItemMeasures :=
            (calculateVisibleItemMeasures inp.itemMinMeasure (inp.length.getD 0) inp.padding
              inp.scrollerMeasure inp.listOffset inp.itemMeasures
              st.visibleItemMeasures).visibleItemMeasures } :
          LayoutState).visibleItemMeasures).visibleItemMeasures.length = 0
        ∧ 0 < inp.length.getD 0 := by
      dsimp only
      rw [calculateVisibleItemMeasures_idem]
      exact he
    rw [updateList_early inp b2 _ he2]
    exact ⟨rfl, rfl, rfl, rfl, rfl⟩
  · have hshape := updateList_shape inp b1 st hc he
    have hne2 : ¬ ((calculateVisibleItemMeasures inp.itemMinMeasure (inp.length.getD 0)
        inp.padding inp.scrollerMeasure inp.listOffset inp.itemMeasures
        (updateList inp b1 st).1.visibleItemMeasures).visibleItemMeasures.length = 0
        ∧ 0 < inp.length.getD 0) := by
      have hvim : (updateList inp b1 st).1.visibleItemMeasures =
          (calculateVisibleItemMeasures inp.itemMinMeasure (inp.length.getD 0) inp.padding
            inp.scrollerMeasure inp.listOffset inp.itemMeasures
            st.visibleItemMeasures).visibleItemMeasures := by
        dsimp only [updateList]
        split
        · rfl
        · rfl
      rw [hvim, calculateVisibleItemMeasures_idem]
      exact he
    exact updateList_fix inp b2 (updateList inp b1 st).1 hshape hne2

/-- C8 witness: the theorem applied at a concrete configuration (factory
present), exercising both recompute runs. -/
theorem c8_recompute_idempotent_witness :
    (updateList ⟨some 5, 20, 2, 0, 0, none, false, true⟩ false
        (updateList ⟨some 5, 20, 2, 0, 0, none, false, true⟩ true
          ⟨[], [], [], [], [], 0, 0⟩).1).1.visible =
      (updateList ⟨some 5, 20, 2, 0, 0, none, false, true⟩ true
        ⟨[], [], [], [], [], 0, 0⟩).1.visible ∧
    (updateList ⟨some 5, 20, 2, 0, 0, none, false, true⟩ false
        (updateList ⟨some 5, 20, 2, 0, 0, none, false, true⟩ true
          ⟨[], [], [], [], [], 0, 0⟩).1).2.obtained = [] ∧
    (updateList ⟨some 5, 20, 2, 0, 0, none, false, true⟩ false
        (updateList ⟨some 5, 20, 2, 0, 0, none, false, true⟩ true
          ⟨[], [], [], [], [], 0, 0⟩).1).2.released = [] ∧
    (updateList ⟨some 5, 20, 2, 0, 0, none, false, true⟩ false
        (updateList ⟨some 5, 20, 2, 0, 0, none, false, true⟩ true
          ⟨[], [], [], [], [], 0, 0⟩).1).1.itemPool =
      (updateList ⟨some 5, 20, 2, 0, 0, none, false, true⟩ true
        ⟨[], [], [], [], [], 0, 0⟩).1.itemPool ∧
    (updateList ⟨some 5, 20, 2, 0, 0, none, false, true⟩ false
        (updateList ⟨some 5, 20, 2, 0, 0, none, false, true⟩ true
          ⟨[], [], [], [], [], 0, 0⟩).1).1.nextTag =
      (updateList ⟨some 5, 20, 2, 0, 0, none, false, true⟩ true
        ⟨[], [], [], [], [], 0, 0⟩).1.nextTag :=
  c8_recompute_idempotent ⟨some 5, 20, 2, 0, 0, none, false, true⟩ true false
    ⟨[], [], [], [], [], 0, 0⟩ rfl

/-- C10: when the computed sequence of visible extents is empty while the
item count is positive, the recompute pass returns early leaving the Visible
Set, the children, the separators and the Item Pool exactly as they were,
with no pool traffic and no item configured. -/
theorem c10_early_return (inp : ListInputs) (b : Bool) (st : LayoutState)
    (h : (calculateVisibleItemMeasures inp.itemMinMeasure (inp.length.getD 0) inp.padding
        inp.scrollerMeasure inp.listOffset inp.itemMeasures
        st.visibleItemMeasures).visibleItemMeasures.length = 0)
    (hl : 0 < inp.length.getD 0) :
    (updateList inp b st).1.visible = st.visible ∧
    (updateList inp b st).1.children = st.children ∧
    (updateList inp b st).1.separators = st.separators ∧
    (updateList inp b st).1.itemPool = st.itemPool ∧
    (updateList inp b st).1.nextTag = st.nextTag ∧
    (updateList inp b st).2 = ⟨[], [], []⟩ := by
  rw [updateList_early inp b st ⟨h, hl⟩]
  exact ⟨rfl, rfl, rfl, rfl, rfl, rfl⟩

/-- C10 witness: the theorem at a state with mounted content and a viewport
of extent 0 (dimensions not yet established). -/
theorem c10_early_return_witness :
    (updateList ⟨some 5, 20, 2, 0, 0, none, false, true⟩ true
        ⟨[⟨3, 7, 0, 20⟩], [7], [11], [], [5], 9, 13⟩).1.visible = [⟨3, 7, 0, 20⟩] ∧
    (updateList ⟨some 5, 20, 2, 0, 0, none, false, true⟩ true
        ⟨[⟨3, 7, 0, 20⟩], [7], [11], [], [5], 9, 13⟩).1.children = [7] ∧
    (updateList ⟨some 5, 20, 2, 0, 0, none, false, true⟩ true
        ⟨[⟨3, 7, 0, 20⟩], [7], [11], [], [5], 9, 13⟩).1.separators = [11] ∧
    (updateList ⟨some 5, 20, 2, 0, 0, none, false, true⟩ true
        ⟨[⟨3, 7, 0, 20⟩], [7], [11], [], [5], 9, 13⟩).1.itemPool = [5] ∧
    (updateList ⟨some 5, 20, 2, 0, 0, none, false, true⟩ true
        ⟨[⟨3, 7, 0, 20⟩], [7], [11], [], [5], 9, 13⟩).1.nextTag = 9 ∧
    (updateList ⟨some 5, 20, 2, 0, 0, none, false, true⟩ true
        ⟨[⟨3, 7, 0, 20⟩], [7], [11], [], [5], 9, 13⟩).2 = ⟨[], [], []⟩ :=
  c10_early_return ⟨some 5, 20, 2, 0, 0, none, false, true⟩ true
    ⟨[⟨3, 7, 0, 20⟩], [7], [11], [], [5], 9, 13⟩
    (by simp [calculateVisibleItemMeasures]) (by decide)

/-! ## Claim C9 -/

/-- The private scroll-into-view step only moves the scroller/offset: the
selection, the length callback and the notification callbacks are
untouched. -/
theorem scrollToAux_fields (sep : ℚ) (l : ListW) (id : Int) :
    (scrollToAux sep l id).selected = l.selected ∧
    (scrollToAux sep l id).length = l.length ∧
    (scrollToAux sep l id).hasOnSelected = l.hasOnSelected ∧
    (scrollToAux sep l id).hasOnUnselected = l.hasOnUnselected := by
  simp only [scrollToAux, offsetUpdatedW]
  split_ifs <;> exact ⟨rfl, rfl, rfl, rfl⟩

/-- `Select` never changes the length callback nor the notification
callbacks. -/
theorem select_fields (sep : ℚ) (l : ListW) (a : Int) :
    (select sep l a).1.length = l.length ∧
    (select sep l a).1.hasOnSelected = l.hasOnSelected ∧
    (select sep l a).1.hasOnUnselected = l.hasOnUnselected := by
  unfold select
  split
  · exact ⟨rfl, rfl, rfl⟩
  · dsimp only
    split
    · exact ⟨rfl, rfl, rfl⟩
    · dsimp only
      have hf := scrollToAux_fields sep { l with selected := [a] } a
      exact ⟨hf.2.1, hf.2.2.1, hf.2.2.2⟩

/-- After an in-range `Select(a)`, the selection is non-empty and headed by
`a`: either the guard fired because `a` was already the first selection, or
the selection was replaced by `[a]`. -/
theorem select_selected (sep : ℚ) (l : ListW) (a : Int)
    (ha0 : 0 ≤ a) (ha : a < l.length.getD 0) :
    0 < (select sep l a).1.selected.length ∧ (select sep l a).1.selected.headI = a := by
  unfold select
  split
  · rename_i hguard
    exact ⟨hguard.1, hguard.2.symm⟩
  · rw [if_neg (by omega)]
    dsimp only
    have hf := scrollToAux_fields sep { l with selected := [a] } a
    rw [hf.1]
    exact ⟨by simp, rfl⟩

/-- C9: after `Select(a)` then `Select(b)` with `a ≠ b`, both in range and
both notification callbacks set, the selection set is exactly `{b}` and the
second call fires `OnUnselected(a)` before `OnSelected(b)`. -/
theorem c9_selection_exclusivity (l : ListW) (sep : ℚ) (a b : Int)
    (hab : a ≠ b) (ha0 : 0 ≤ a) (ha : a < l.length.getD 0)
    (hb0 : 0 ≤ b) (hb : b < l.length.getD 0)
    (hsel : l.hasOnSelected = true) (hunsel : l.hasOnUnselected = true) :
    (select sep (select sep l a).1 b).1.selected = [b] ∧
    (select sep (select sep l a).1 b).2 =
      [SelEvent.unselected a, SelEvent.selected b] := by
  obtain ⟨hpos, hhead⟩ := select_selected sep l a ha0 ha
  obtain ⟨hlen, hos, hou⟩ := select_fields sep l a
  set l1 := (select sep l a).1 with hl1
  unfold select
  rw [if_neg (by
    rintro ⟨h1', h2'⟩
    exact hab ((h2'.trans hhead).symm))]
  rw [if_neg (by rw [hlen]; omega)]
  dsimp only
  constructor
  · exact (scrollToAux_fields sep { l1 with selected := [b] } b).1
  · rw [hou, hos, hunsel, hsel]
    rw [if_pos ⟨rfl, hpos⟩, if_pos rfl, hhead]
    rfl

/-- C9 witness: the theorem at a concrete three-item list, selecting 0 then
1. -/
theorem c9_selection_exclusivity_witness :
    (select 2 (select 2 ⟨some 3, true, true, true, [], none, 10, 20, 0, 100, 0⟩ 0).1 1).1.selected
      = [1] ∧
    (select 2 (select 2 ⟨some 3, true, true, true, [], none, 10, 20, 0, 100, 0⟩ 0).1 1).2
      = [SelEvent.unselected 0, SelEvent.selected 1] :=
  c9_selection_exclusivity ⟨some 3, true, true, true, [], none, 10, 20, 0, 100, 0⟩ 2 0 1
    (by decide) (by decide) (by decide) (by decide) (by decide) rfl rfl

/-- C6 witness: the amended theorem applied with a zero viewport (previous
contents returned unchanged) and with item count 0 under a positive
viewport (empty window). -/
theorem c6_degenerate_window_witness :
    calculateVisibleItemMeasures 20 1 2 0 0 none [7] = ⟨0, 0, [7]⟩ ∧
    (calculateVisibleItemMeasures 20 0 2 5 0 none [7]).visibleItemMeasures = [] :=
  ⟨(c6_degenerate_window 20 1 2 0 0 none [7]).1 (by norm_num),
   (c6_degenerate_window 20 0 2 5 0 none [7]).2 rfl (by norm_num)⟩

end FyneList
